import Mathlib

/-!
Shallow embedding of the leedor EPUB engine (`src/crate/src/epub.rs` with its
helpers in `src/crate/src/utils.rs` and `src/crate/src/xml.rs`).

Modelling conventions:
* Rust `PathBuf` values are represented by their component lists (`PathT`);
  equality of `PathBuf`s in Rust compares exactly these components.  Component
  iteration of a relative path (`for segment in Path::new(s)`) normalizes away
  `.` segments except a leading one, which `pathComponents` reproduces.
* The zip archive is the list of its entries (name, raw bytes); bytes are `Nat`
  values (u8 in Rust, so `< 256` where it matters).
* XML parsing (`parse_xml`, external `quick_xml`/`minidom`) is an external
  dependency: operations take a parse function `px : List Nat → Except LErr
  Element` as a parameter.  The element tree mirrors the parts of `minidom`'s
  `Element` the engine uses: name, attributes, children, text.
* URL parsing (`utils::parse_relative_url`, the external `url` crate against
  the fixed base `https://leedor.jreyes.org`, followed by `Url::path()`) is
  likewise an external dependency: operations take a resolver `pu : String →
  Except LErr String` returning the resolved URL's path (always starting with
  `/`), or the crate's parse error.  Facts about the real resolver (that an
  empty or fragment-only href yields path `/`, or that a given href's
  WHATWG-normalized path is `/` followed by the href itself) appear as
  hypotheses of the theorems that need them.
* Rust `Result` errors are `LErr.err`; a Rust `panic` (from `.expect(..)`) is
  the distinct outcome `LErr.panic` — both abort the operation, but only the
  former is an error *value* returned to the caller.
* Methods taking `&mut self` become functions `Epub → (Epub × Except LErr _)`:
  the returned state is the state of the engine after the call, whether the
  call succeeded or failed.
-/

set_option maxRecDepth 100000

inductive LErr where
  | err : String → LErr
  | panic : String → LErr
deriving DecidableEq, Repr

inductive Element where
  | mk : String → List (String × String) → List Element → String → Element

def Element.name : Element → String
  | .mk n _ _ _ => n

def Element.attrs : Element → List (String × String)
  | .mk _ a _ _ => a

def Element.children : Element → List Element
  | .mk _ _ c _ => c

def Element.text : Element → String
  | .mk _ _ _ t => t

/-- `minidom::Element::attr`: first attribute with the given name. -/
def attrGet (attrs : List (String × String)) (k : String) : Option String :=
  (attrs.find? (fun p => p.1 == k)).map (fun p => p.2)

/-- `minidom::Element::set_attr`: replace the value in place if the attribute
exists, otherwise append it. -/
def setAttr : List (String × String) → String → String → List (String × String)
  | [], k, v => [(k, v)]
  | (k', v') :: t, k, v => if k' == k then (k, v) :: t else (k', v') :: setAttr t k v

mutual
/-- The `Descend::descendants` iterator of `src/crate/src/xml.rs`: depth-first
preorder traversal of the strict descendants of an element. -/
def Element.descendants : Element → List Element
  | .mk _ _ cs _ => descendantsList cs

def descendantsList : List Element → List Element
  | [] => []
  | c :: rest => c :: (Element.descendants c ++ descendantsList rest)
end

/-- Serialization of a parsed document back to text (`Element::write_to` of
`minidom` followed by `String::from_utf8` in `current_chapter`).  The exact
text format of the external writer is irrelevant to the claims; what matters
is that it is a fixed total function of the tree. -/
def attrsString : List (String × String) → String
  | [] => ""
  | (k, v) :: t => " " ++ k ++ "=\"" ++ v ++ "\"" ++ attrsString t

mutual
def Element.serialize : Element → String
  | .mk n attrs cs t => "<" ++ n ++ attrsString attrs ++ ">" ++ t ++ serializeList cs ++ "</" ++ n ++ ">"

def serializeList : List Element → String
  | [] => ""
  | c :: cs => Element.serialize c ++ serializeList cs
end

/-- Archive paths as their component lists (Rust `PathBuf`). -/
abbrev PathT := List String

/-- Split a character list at every `/`, keeping empty fields. -/
def splitOnSlash (l : List Char) : List (List Char) :=
  match l with
  | [] => [[]]
  | c :: rest =>
    match splitOnSlash rest with
    | [] => [[]]
    | f :: fs => if c = '/' then [] :: f :: fs else (c :: f) :: fs

/-- Component iteration of a relative Rust path (`for segment in Path::new(s)`):
splits on `/`, drops empty segments, and normalizes `.` away except as the
first component, as `std::path::Components` does. -/
def pathComponents (s : String) : PathT :=
  match ((splitOnSlash s.toList).map String.mk).filter (fun seg => seg != "") with
  | [] => []
  | h :: t => h :: t.filter (fun seg => seg != ".")

/-- `PathBuf::to_str` (the components joined back with `/`). -/
def pathToStr : PathT → String
  | [] => ""
  | [x] => x
  | x :: rest => x ++ "/" ++ pathToStr rest

/-- The segment loop of `resolve_path`: `..` pops the last component
(`PathBuf::pop`), any other segment is pushed (`PathBuf::push`). -/
def resolveSegs (built_path : PathT) : List String → PathT
  | [] => built_path
  | segment :: rest =>
    if segment == ".." then resolveSegs built_path.dropLast rest
    else resolveSegs (built_path ++ [segment]) rest

/-- `resolve_path` of `src/crate/src/epub.rs` lines 220-234: an empty reference
returns `relative_to` unchanged (the early return *before* the `pop`);
otherwise the last component of `relative_to` is dropped and the reference's
segments are walked. -/
def resolve_path (path_str : String) (relative_to : PathT) : PathT :=
  if path_str == "" then relative_to
  else resolveSegs relative_to.dropLast (pathComponents path_str)

/-- A URL resolver standing for the external `utils::parse_relative_url`
followed by `Url::path()`: given an href as found in content, it returns the
path of the URL resolved against the fixed base `https://leedor.jreyes.org`
(fragment and query removed, WHATWG dot-segment removal applied, always
starting with `/`), or the `url` crate's parse error. -/
abbrev Pu := String → Except LErr String

/-- The byte slice `&s[1..]` of `current_chapter` ("drop the slash"): the URL
path always starts with `/`, so this drops the first character. -/
def strDrop1 (s : String) : String :=
  String.mk (s.toList.drop 1)

/-- `ZipArchive::by_name` on an in-memory archive modelled as an entry list,
together with reading the entry to its end: exact name match, first entry
wins. -/
def zipByName (zip : List (String × List Nat)) (name : String) : Option (List Nat) :=
  (zip.find? (fun p => p.1 == name)).map (fun p => p.2)

/-- `ZipFile::sanitized_name` for ordinary forward-slash entry names: the
component list with empty, `.` and `..` segments removed. -/
def sanitizeName (s : String) : PathT :=
  ((splitOnSlash s.toList).map String.mk).filter
    (fun seg => seg != "" && seg != "." && seg != "..")

/-- Base64 alphabet used by `base64::STANDARD`. -/
def b64alphabet : List Char :=
  "ABCDEFGHIJKLMNOPQRSTUVWXYZabcdefghijklmnopqrstuvwxyz0123456789+/".toList

def b64char (n : Nat) : Char :=
  b64alphabet.getD n '='

/-- `base64::encode_config_buf(bytes, base64::STANDARD, ..)`: standard base64
with `=` padding, produced three input bytes at a time. -/
def b64encodeChars : List Nat → List Char
  | [] => []
  | [b1] => [b64char (b1 / 4), b64char (b1 % 4 * 16), '=', '=']
  | [b1, b2] => [b64char (b1 / 4), b64char (b1 % 4 * 16 + b2 / 16), b64char (b2 % 16 * 4), '=']
  | b1 :: b2 :: b3 :: rest =>
    b64char (b1 / 4) :: b64char (b1 % 4 * 16 + b2 / 16) ::
      b64char (b2 % 16 * 4 + b3 / 64) :: b64char (b3 % 64) :: b64encodeChars rest

def b64encode (bytes : List Nat) : String :=
  String.mk (b64encodeChars bytes)

/-- Standard base64 decoding (specification side, used to state that an
encoded payload decodes back to the original bytes). -/
def b64charVal (c : Char) : Option Nat :=
  b64alphabet.indexOf? c

def b64decodeList : List Char → Option (List Nat)
  | a :: b :: c :: d :: rest =>
    if c = '=' ∧ d = '=' ∧ rest = [] then
      match b64charVal a, b64charVal b with
      | some x, some y => some [x * 4 + y / 16]
      | _, _ => none
    else if d = '=' ∧ rest = [] then
      match b64charVal a, b64charVal b, b64charVal c with
      | some x, some y, some z => some [x * 4 + y / 16, y % 16 * 16 + z / 4]
      | _, _, _ => none
    else
      match b64charVal a, b64charVal b, b64charVal c, b64charVal d, b64decodeList rest with
      | some x, some y, some z, some w, some tail =>
        some ((x * 4 + y / 16) :: (y % 16 * 16 + z / 4) :: (z % 4 * 64 + w) :: tail)
      | _, _, _, _, _ => none
  | [] => some []
  | _ => none

def b64decode (s : String) : Option (List Nat) :=
  b64decodeList s.toList

deriving instance DecidableEq for Except

structure ManifestItem where
  id : String
  href : String
  media_type : String
deriving DecidableEq, Repr

/-- `HashMap` insertion (`std::collections::HashMap` built by `collect`):
a repeated key overwrites the previous value (last wins). -/
def mInsert : List (String × ManifestItem) → String → ManifestItem → List (String × ManifestItem)
  | [], k, v => [(k, v)]
  | (k', v') :: t, k, v => if k' == k then (k, v) :: t else (k', v') :: mInsert t k v

/-- `HashMap::get`. Keys are unique by construction (`mInsert`). -/
def mGet (m : List (String × ManifestItem)) (k : String) : Option ManifestItem :=
  (m.find? (fun p => p.1 == k)).map (fun p => p.2)

/-- The engine state (`struct Epub`).  The Rust struct also retains the parsed
OPF document (`opf_doc`), which no operation reads after construction; it is
omitted here. -/
structure Epub where
  current_path : PathT
  manifest : List (String × ManifestItem)
  opf_path : PathT
  spine : List String
  toc_path : PathT
  zip : List (String × List Nat)
deriving DecidableEq, Repr

/-- A parse function standing for the external `parse_xml`. -/
abbrev Px := List Nat → Except LErr Element

/-- The manifest-building loop of `Epub::new` (lines 59-78): every `item` child
in document order; a missing `id`/`href`/`media-type` attribute hits
`.expect(..)`, i.e. panics. -/
def buildManifest (acc : List (String × ManifestItem)) : List Element → Except LErr (List (String × ManifestItem))
  | [] => .ok acc
  | n :: rest =>
    if n.name == "item" then
      match attrGet n.attrs "id" with
      | none => .error (.panic "id missing in item")
      | some id =>
        match attrGet n.attrs "href" with
        | none => .error (.panic "href missing in item")
        | some href =>
          match attrGet n.attrs "media-type" with
          | none => .error (.panic "media_type missing in item")
          | some media_type =>
            buildManifest (mInsert acc id ⟨id, href, media_type⟩) rest
    else buildManifest acc rest

/-- The spine-building loop of `Epub::new` (lines 83-87): every `itemref`
child's `idref` attribute, in document order; a missing `idref` panics.  Note
that no manifest lookup happens here. -/
def buildSpine : List Element → Except LErr (List String)
  | [] => .ok []
  | n :: rest =>
    if n.name == "itemref" then
      match attrGet n.attrs "idref" with
      | none => .error (.panic "idref missing in item")
      | some idref =>
        match buildSpine rest with
        | .error er => .error er
        | .ok restS => .ok (idref :: restS)
    else buildSpine rest

/-- `Epub::new` (lines 42-102). -/
def Epub.new (px : Px) (zip : List (String × List Nat)) : Except LErr Epub :=
  match zipByName zip "META-INF/container.xml" with
  | none => .error (.err "file not found")
  | some containerBytes =>
    match px containerBytes with
    | .error er => .error er
    | .ok container_doc =>
      match container_doc.descendants.find? (fun n => n.name == "rootfile") with
      | none => .error (.err "no rootfile in container.xml")
      | some rootfile_node =>
        match attrGet rootfile_node.attrs "full-path" with
        | none => .error (.err "no full-path attribute in rootfile")
        | some opf_str_path =>
          match zipByName zip opf_str_path with
          | none => .error (.err "file not found")
          | some opfBytes =>
            let opf_path := sanitizeName opf_str_path
            match px opfBytes with
            | .error er => .error er
            | .ok opf_doc =>
              match opf_doc.children.find? (fun n => n.name == "manifest") with
              | none => .error (.err "manifest element missing in OPF")
              | some manifest_node =>
                match buildManifest [] manifest_node.children with
                | .error er => .error er
                | .ok manifest =>
                  match opf_doc.children.find? (fun n => n.name == "spine") with
                  | none => .error (.err "spine element missing in OPF")
                  | some spine_node =>
                    match buildSpine spine_node.children with
                    | .error er => .error er
                    | .ok spine =>
                      match attrGet spine_node.attrs "toc" with
                      | none => .error (.err "toc missing in spine")
                      | some toc_id =>
                        match mGet manifest toc_id with
                        | none => .error (.err "toc in spine not defined in manifest")
                        | some toc_item =>
                          .ok { current_path := opf_path
                                manifest := manifest
                                opf_path := opf_path
                                spine := spine
                                toc_path := resolve_path toc_item.href opf_path
                                zip := zip }

def Epub.doc_count (e : Epub) : Except LErr Nat :=
  .ok e.spine.length

/-- `Epub::media_type` (lines 208-217): reverse search of the manifest for an
item whose href, resolved against the OPF path, equals the given path. -/
def Epub.media_type (e : Epub) (path : PathT) : Option String :=
  ((e.manifest.map (fun p => p.2)).find?
    (fun i => resolve_path i.href e.opf_path == path)).map (fun i => i.media_type)

/-- The `let attr_name = match elem.name() .. ` table of `inline_resources`:
which attribute gets rewritten for which tag. -/
def attrNameFor : String → Option String
  | "img" => some "src"
  | "image" => some "xlink:href"
  | "link" => some "href"
  | _ => none

mutual
/-- `Epub::inline_resources` (lines 180-206): post-order walk; `img`/`image`/
`link` elements get their `src`/`xlink:href`/`href` attribute replaced by a
`data:<media-type>;base64,<payload>` URI built from the referenced entry's
bytes, resolved against `current_path`; a missing manifest media type defaults
to the empty string; a missing archive entry fails the whole walk. -/
def Epub.inline_resources (e : Epub) : Element → Except LErr Element
  | .mk name attrs cs t =>
    match inlineList e cs with
    | .error er => .error er
    | .ok cs' =>
      match attrNameFor name with
      | none => .ok (.mk name attrs cs' t)
      | some attr_name =>
        match attrGet attrs attr_name with
        | none => .ok (.mk name attrs cs' t)
        | some img_href =>
          let resource_path := resolve_path img_href e.current_path
          let media_type := (e.media_type resource_path).getD ""
          match zipByName e.zip (pathToStr resource_path) with
          | none => .error (.err "file not found")
          | some bytes =>
            .ok (.mk name
              (setAttr attrs attr_name ("data:" ++ media_type ++ ";base64," ++ b64encode bytes))
              cs' t)

def inlineList (e : Epub) : List Element → Except LErr (List Element)
  | [] => .ok []
  | c :: rest =>
    match Epub.inline_resources e c with
    | .error er => .error er
    | .ok c' =>
      match inlineList e rest with
      | .error er => .error er
      | .ok rest' => .ok (c' :: rest')
end

/-- The read/parse/inline/serialize tail of `Epub::current_chapter` (lines
170-176), which runs after `current_path` has already been reassigned. -/
def renderCurrent (px : Px) (e : Epub) : Except LErr String :=
  match zipByName e.zip (pathToStr e.current_path) with
  | none => .error (.err "file not found")
  | some bytes =>
    match px bytes with
    | .error er => .error er
    | .ok doc =>
      match e.inline_resources doc with
      | .error er => .error er
      | .ok doc2 => .ok (Element.serialize doc2)

/-- `Epub::current_chapter` (lines 166-177): the href is URL-parsed (the `?`
propagates a parse error before any state changes), the leading slash of the
URL path is dropped, the result is resolved against `relative_to`, and
`self.current_path` is assigned *before* the entry is read, parsed, inlined
and serialized. -/
def Epub.current_chapter (px : Px) (pu : Pu) (e : Epub) (href : String) (relative_to : PathT) : Epub × Except LErr String :=
  match pu href with
  | .error er => (e, .error er)
  | .ok upath =>
    let path := strDrop1 upath
    let e' := { e with current_path := resolve_path path relative_to }
    (e', renderCurrent px e')

/-- `Epub::chapter` (lines 109-113). -/
def Epub.chapter (px : Px) (pu : Pu) (e : Epub) (item_idx : Nat) : Epub × Except LErr String :=
  match e.spine[item_idx]? with
  | none => (e, .error (.err "item_idx not in spine"))
  | some idref =>
    match mGet e.manifest idref with
    | none => (e, .error (.err "idref not in manifest"))
    | some item => e.current_chapter px pu item.href e.opf_path

/-- `Epub::chapter_by_link` (lines 115-117). -/
def Epub.chapter_by_link (px : Px) (pu : Pu) (e : Epub) (link : String) : Epub × Except LErr String :=
  e.current_chapter px pu link e.current_path

/-- `Epub::chapter_by_toc_link` (lines 119-121). -/
def Epub.chapter_by_toc_link (px : Px) (pu : Pu) (e : Epub) (link : String) : Epub × Except LErr String :=
  e.current_chapter px pu link e.toc_path

/-- The scan of `Epub::current_idx` (lines 154-164): enumerate the spine,
look the idref up in the manifest (`.expect(..)` — a panic on failure),
and return the first index whose resolved item path equals `current_path`. -/
def currentIdxGo (e : Epub) (i : Nat) : List String → Except LErr Nat
  | [] => .error (.err "could not find current_path in spine")
  | idref :: rest =>
    match mGet e.manifest idref with
    | none => .error (.panic "idref not in manifest")
    | some item =>
      if resolve_path item.href e.opf_path == e.current_path then .ok i
      else currentIdxGo e (i + 1) rest

def Epub.current_idx (e : Epub) : Except LErr Nat :=
  currentIdxGo e 0 e.spine

/-- `Epub::next_chapter` (lines 123-125): `chapter(current_idx + 1)`. -/
def Epub.next_chapter (px : Px) (pu : Pu) (e : Epub) : Epub × Except LErr String :=
  match e.current_idx with
  | .error er => (e, .error er)
  | .ok i => e.chapter px pu (i + 1)

/-- `Epub::prev_chapter` (lines 127-129): `chapter(current_idx.saturating_sub(1))`
(Nat subtraction saturates at 0 exactly like `usize::saturating_sub`). -/
def Epub.prev_chapter (px : Px) (pu : Pu) (e : Epub) : Epub × Except LErr String :=
  match e.current_idx with
  | .error er => (e, .error er)
  | .ok i => e.chapter px pu (i - 1)

/-! Concrete fixtures: a small archive family used to instantiate the theorems.
`pxA` is a concrete parse function mapping each entry's bytes to its parsed
document. -/

def containerDocA : Element :=
  .mk "container" []
    [.mk "rootfiles" [] [.mk "rootfile" [("full-path", "content.opf")] [] ""] ""] ""

def itemElem (id href mt : String) : Element :=
  .mk "item" [("id", id), ("href", href), ("media-type", mt)] [] ""

def itemrefElem (idref : String) : Element :=
  .mk "itemref" [("idref", idref)] [] ""

def ch1Doc : Element := .mk "html" [] [] "one"

def ch2Doc : Element := .mk "html" [] [] "two"

def ncxDoc : Element := .mk "ncx" [] [] ""

/-- A well-formed package document: two chapters and an NCX ToC. -/
def opfDocA : Element :=
  .mk "package" []
    [.mk "manifest" []
      [itemElem "c1" "ch1.xhtml" "application/xhtml+xml",
       itemElem "c2" "ch2.xhtml" "application/xhtml+xml",
       itemElem "ncx" "toc.ncx" "application/x-dtbncx+xml"] "",
     .mk "spine" [("toc", "ncx")] [itemrefElem "c1", itemrefElem "c2"] ""] ""

/-- A package document whose spine references the idref `ghost`, which no
manifest item defines. -/
def opfDocGhost : Element :=
  .mk "package" []
    [.mk "manifest" []
      [itemElem "c1" "ch1.xhtml" "application/xhtml+xml",
       itemElem "ncx" "toc.ncx" "application/x-dtbncx+xml"] "",
     .mk "spine" [("toc", "ncx")] [itemrefElem "c1", itemrefElem "ghost"] ""] ""

/-- A package document whose first manifest item lacks the `href` attribute. -/
def opfDocNoHref : Element :=
  .mk "package" []
    [.mk "manifest" []
      [.mk "item" [("id", "c1"), ("media-type", "application/xhtml+xml")] [] "",
       itemElem "ncx" "toc.ncx" "application/x-dtbncx+xml"] "",
     .mk "spine" [("toc", "ncx")] [itemrefElem "c1"] ""] ""

/-- A package document whose spine lists the first chapter twice. -/
def opfDocDup : Element :=
  .mk "package" []
    [.mk "manifest" []
      [itemElem "c1" "ch1.xhtml" "application/xhtml+xml",
       itemElem "c2" "ch2.xhtml" "application/xhtml+xml",
       itemElem "ncx" "toc.ncx" "application/x-dtbncx+xml"] "",
     .mk "spine" [("toc", "ncx")] [itemrefElem "c1", itemrefElem "c1", itemrefElem "c2"] ""] ""

def pxA : Px
  | [0] => .ok containerDocA
  | [1] => .ok opfDocA
  | [2] => .ok ch1Doc
  | [3] => .ok ch2Doc
  | [4] => .ok opfDocGhost
  | [5] => .ok opfDocNoHref
  | [6] => .ok opfDocDup
  | [7] => .ok ncxDoc
  | _ => .error (.err "xml parse error")

/-- A concrete URL resolver used to instantiate the theorems: it strips the
fragment and prefixes `/`, which is the `url` crate's result for the plain
relative references appearing in these fixtures (no dot-segments, no query,
no scheme). -/
def puA : Pu := fun href =>
  .ok ("/" ++ String.mk (href.toList.takeWhile (fun c => c != '#')))

def zipA : List (String × List Nat) :=
  [("META-INF/container.xml", [0]), ("content.opf", [1]),
   ("ch1.xhtml", [2]), ("ch2.xhtml", [3]), ("toc.ncx", [7])]

def zipGhost : List (String × List Nat) :=
  [("META-INF/container.xml", [0]), ("content.opf", [4]),
   ("ch1.xhtml", [2]), ("toc.ncx", [7])]

def zipNoHref : List (String × List Nat) :=
  [("META-INF/container.xml", [0]), ("content.opf", [5]),
   ("ch1.xhtml", [2]), ("toc.ncx", [7])]

def zipDup : List (String × List Nat) :=
  [("META-INF/container.xml", [0]), ("content.opf", [6]),
   ("ch1.xhtml", [2]), ("ch2.xhtml", [3]), ("toc.ncx", [7])]

/-- The engine state `Epub::new` produces from `zipA`. -/
def epubA : Epub :=
  { current_path := ["content.opf"]
    manifest := [("c1", ⟨"c1", "ch1.xhtml", "application/xhtml+xml"⟩),
                 ("c2", ⟨"c2", "ch2.xhtml", "application/xhtml+xml"⟩),
                 ("ncx", ⟨"ncx", "toc.ncx", "application/x-dtbncx+xml"⟩)]
    opf_path := ["content.opf"]
    spine := ["c1", "c2"]
    toc_path := ["toc.ncx"]
    zip := zipA }

/-- The engine state `Epub::new` produces from `zipGhost`. -/
def epubGhost : Epub :=
  { current_path := ["content.opf"]
    manifest := [("c1", ⟨"c1", "ch1.xhtml", "application/xhtml+xml"⟩),
                 ("ncx", ⟨"ncx", "toc.ncx", "application/x-dtbncx+xml"⟩)]
    opf_path := ["content.opf"]
    spine := ["c1", "ghost"]
    toc_path := ["toc.ncx"]
    zip := zipGhost }

/-- The engine state `Epub::new` produces from `zipDup`. -/
def epubDup : Epub :=
  { current_path := ["content.opf"]
    manifest := [("c1", ⟨"c1", "ch1.xhtml", "application/xhtml+xml"⟩),
                 ("c2", ⟨"c2", "ch2.xhtml", "application/xhtml+xml"⟩),
                 ("ncx", ⟨"ncx", "toc.ncx", "application/x-dtbncx+xml"⟩)]
    opf_path := ["content.opf"]
    spine := ["c1", "c1", "c2"]
    toc_path := ["toc.ncx"]
    zip := zipDup }

/-- An engine state rendering a chapter containing an image, used to
instantiate the inlining theorem. -/
def epubImg : Epub :=
  { current_path := ["ch1.xhtml"]
    manifest := [("p1", ⟨"p1", "pic.png", "image/png"⟩)]
    opf_path := ["content.opf"]
    spine := ["c1"]
    toc_path := ["toc.ncx"]
    zip := [("pic.png", [77, 78, 79])] }

def imgDoc : Element :=
  .mk "div" [] [.mk "img" [("src", "pic.png")] [] ""] "x"

/-- The chapter-retrieval operations of the external interface, as data, so
that a single statement can quantify over all five. -/
inductive NavOp where
  | chapterOp : Nat → NavOp
  | byLink : String → NavOp
  | byTocLink : String → NavOp
  | nextOp : NavOp
  | prevOp : NavOp

def runOp (px : Px) (pu : Pu) (e : Epub) : NavOp → Epub × Except LErr String
  | .chapterOp i => e.chapter px pu i
  | .byLink href => e.chapter_by_link px pu href
  | .byTocLink href => e.chapter_by_toc_link px pu href
  | .nextOp => e.next_chapter px pu
  | .prevOp => e.prev_chapter px pu

/-- The archive path `current_chapter` would assign for a given href and
anchor: the resolved URL path with its leading slash dropped, resolved against
the anchor — or `none` when the URL parse itself fails (before any state
changes). -/
def chTargetPath (pu : Pu) (href : String) (relative_to : PathT) : Option PathT :=
  match pu href with
  | .error _ => none
  | .ok upath => some (resolve_path (strDrop1 upath) relative_to)

/-- The target path `chapter(i)` attempts (`none` when a lookup or the URL
parse fails before any path is computed). -/
def chapterTargetPath (pu : Pu) (e : Epub) (i : Nat) : Option PathT :=
  match e.spine[i]? with
  | none => none
  | some idref =>
    match mGet e.manifest idref with
    | none => none
    | some item => chTargetPath pu item.href e.opf_path

/-- The target path each operation attempts to move the cursor to. -/
def opTargetPath (pu : Pu) (e : Epub) : NavOp → Option PathT
  | .chapterOp i => chapterTargetPath pu e i
  | .byLink href => chTargetPath pu href e.current_path
  | .byTocLink href => chTargetPath pu href e.toc_path
  | .nextOp =>
    match e.current_idx with
    | .error _ => none
    | .ok i => chapterTargetPath pu e (i + 1)
  | .prevOp =>
    match e.current_idx with
    | .error _ => none
    | .ok i => chapterTargetPath pu e (i - 1)

/-- Specification-side media type (claim C9's words): the media type of the
manifest item whose resolved href equals the target path, or the empty string
when no manifest item matches. -/
def specMediaType (e : Epub) (p : PathT) : String :=
  match (e.manifest.map (fun q => q.2)).find?
      (fun i => resolve_path i.href e.opf_path == p) with
  | some item => item.media_type
  | none => ""

mutual
/-- Specification-side description of a successfully inlined element (claim
C9's words): same tag and text, children inlined pointwise, and the targeted
attribute — when present — rewritten to `data:<media-type>;base64,<payload>`
where the payload base64-decodes byte-for-byte to the referenced archive
entry's bytes, the entry is the attribute value resolved against
`current_path`, and the media type is the manifest's or empty. -/
def Inlined (e : Epub) : Element → Element → Prop
  | .mk n attrs cs t, .mk n' attrs' cs' t' =>
    n' = n ∧ t' = t ∧ InlinedList e cs cs' ∧
    (match attrNameFor n with
     | none => attrs' = attrs
     | some a =>
       match attrGet attrs a with
       | none => attrs' = attrs
       | some v =>
         ∃ bytes payload,
           zipByName e.zip (pathToStr (resolve_path v e.current_path)) = some bytes ∧
           b64decode payload = some bytes ∧
           attrs' = setAttr attrs a
             ("data:" ++ specMediaType e (resolve_path v e.current_path) ++ ";base64," ++ payload))

def InlinedList (e : Epub) : List Element → List Element → Prop
  | [], [] => True
  | c :: cs, c' :: cs' => Inlined e c c' ∧ InlinedList e cs cs'
  | _, _ => False
end

/-! Helper lemmas. -/

lemma b64charVal_b64char : ∀ n, n < 64 → b64charVal (b64char n) = some n := by decide

lemma b64char_ne_pad : ∀ n, n < 64 → b64char n ≠ '=' := by decide

/-- Standard base64 round-trip: decoding an encoded byte list recovers the
bytes, provided every byte fits in an octet. -/
lemma b64decode_b64encode (bytes : List Nat) (h : ∀ b ∈ bytes, b < 256) :
    b64decode (b64encode bytes) = some bytes := by
  rw [b64decode, b64encode]
  show b64decodeList (b64encodeChars bytes) = some bytes
  induction bytes using b64encodeChars.induct with
  | case1 => rfl
  | case2 b1 =>
    have hb1 : b1 < 256 := h b1 (by simp)
    have h1 : b64charVal (b64char (b1 / 4)) = some (b1 / 4) :=
      b64charVal_b64char _ (by omega)
    have h2 : b64charVal (b64char (b1 % 4 * 16)) = some (b1 % 4 * 16) :=
      b64charVal_b64char _ (by omega)
    simp [b64encodeChars, b64decodeList, h1, h2]
    omega
  | case3 b1 b2 =>
    have hb1 : b1 < 256 := h b1 (by simp)
    have hb2 : b2 < 256 := h b2 (by simp)
    have hne : b64char (b2 % 16 * 4) ≠ '=' := b64char_ne_pad _ (by omega)
    have h1 : b64charVal (b64char (b1 / 4)) = some (b1 / 4) :=
      b64charVal_b64char _ (by omega)
    have h2 : b64charVal (b64char (b1 % 4 * 16 + b2 / 16)) = some (b1 % 4 * 16 + b2 / 16) :=
      b64charVal_b64char _ (by omega)
    have h3 : b64charVal (b64char (b2 % 16 * 4)) = some (b2 % 16 * 4) :=
      b64charVal_b64char _ (by omega)
    simp [b64encodeChars, b64decodeList, hne, h1, h2, h3]
    omega
  | case4 b1 b2 b3 rest ih =>
    have hb1 : b1 < 256 := h b1 (by simp)
    have hb2 : b2 < 256 := h b2 (by simp)
    have hb3 : b3 < 256 := h b3 (by simp)
    have hrest : ∀ b ∈ rest, b < 256 := by
      intro b hb
      exact h b (by simp [hb])
    have hne1 : b64char (b2 % 16 * 4 + b3 / 64) ≠ '=' := b64char_ne_pad _ (by omega)
    have hne2 : b64char (b3 % 64) ≠ '=' := b64char_ne_pad _ (by omega)
    have h1 : b64charVal (b64char (b1 / 4)) = some (b1 / 4) :=
      b64charVal_b64char _ (by omega)
    have h2 : b64charVal (b64char (b1 % 4 * 16 + b2 / 16)) = some (b1 % 4 * 16 + b2 / 16) :=
      b64charVal_b64char _ (by omega)
    have h3 : b64charVal (b64char (b2 % 16 * 4 + b3 / 64)) = some (b2 % 16 * 4 + b3 / 64) :=
      b64charVal_b64char _ (by omega)
    have h4 : b64charVal (b64char (b3 % 64)) = some (b3 % 64) :=
      b64charVal_b64char _ (by omega)
    simp [b64encodeChars, b64decodeList, hne1, hne2, h1, h2, h3, h4, ih hrest]
    omega


lemma zipByName_mem {z : List (String × List Nat)} {nm : String} {bs : List Nat}
    (h : zipByName z nm = some bs) : ∃ nm2, (nm2, bs) ∈ z := by
  unfold zipByName at h
  cases hf : z.find? (fun p => p.1 == nm) with
  | none => rw [hf] at h; exact absurd h (by simp)
  | some q =>
    rw [hf] at h
    simp at h
    have hm := List.mem_of_find?_eq_some hf
    refine ⟨q.1, ?_⟩
    rw [← h]
    exact hm

lemma mediaType_getD_eq_spec (e : Epub) (p : PathT) :
    (e.media_type p).getD "" = specMediaType e p := by
  unfold Epub.media_type specMediaType
  cases hf : (e.manifest.map (fun q => q.2)).find?
      (fun i => resolve_path i.href e.opf_path == p) <;> simp [hf]

mutual
/-- If the inlining pass succeeds, the output is related to the input by the
specification-side relation `Inlined` (assuming archive bytes are octets). -/
def inlineSound (e : Epub) (hwf : ∀ en ∈ e.zip, ∀ b ∈ en.2, b < 256) :
    ∀ el out, e.inline_resources el = .ok out → Inlined e el out
  | .mk n attrs cs t, out, h => by
    rw [Epub.inline_resources] at h
    cases hcs : inlineList e cs with
    | error er => rw [hcs] at h; exact absurd h (by simp)
    | ok cs' =>
      rw [hcs] at h
      dsimp only at h
      have hchildren : InlinedList e cs cs' := inlineListSound e hwf cs cs' hcs
      cases han : attrNameFor n with
      | none =>
        rw [han] at h
        dsimp only at h
        simp only [Except.ok.injEq] at h
        subst h
        rw [Inlined, han]
        dsimp only
        exact ⟨rfl, rfl, hchildren, rfl⟩
      | some a =>
        rw [han] at h
        dsimp only at h
        cases hat : attrGet attrs a with
        | none =>
          rw [hat] at h
          dsimp only at h
          simp only [Except.ok.injEq] at h
          subst h
          rw [Inlined, han]
          dsimp only
          rw [hat]
          dsimp only
          exact ⟨rfl, rfl, hchildren, rfl⟩
        | some v =>
          rw [hat] at h
          dsimp only at h
          cases hz : zipByName e.zip (pathToStr (resolve_path v e.current_path)) with
          | none => rw [hz] at h; exact absurd h (by simp)
          | some bytes =>
            rw [hz] at h
            dsimp only at h
            simp only [Except.ok.injEq] at h
            subst h
            rw [Inlined, han]
            dsimp only
            rw [hat]
            dsimp only
            refine ⟨rfl, rfl, hchildren, bytes, b64encode bytes, hz, ?_, ?_⟩
            · obtain ⟨nm2, hmem⟩ := zipByName_mem hz
              exact b64decode_b64encode bytes (hwf (nm2, bytes) hmem)
            · rw [mediaType_getD_eq_spec]
  termination_by el => sizeOf el

def inlineListSound (e : Epub) (hwf : ∀ en ∈ e.zip, ∀ b ∈ en.2, b < 256) :
    ∀ ls outs, inlineList e ls = .ok outs → InlinedList e ls outs
  | [], outs, h => by
    rw [inlineList] at h
    simp only [Except.ok.injEq] at h
    subst h
    rw [InlinedList]
    trivial
  | c :: rest, outs, h => by
    rw [inlineList] at h
    cases hc : e.inline_resources c with
    | error er => rw [hc] at h; exact absurd h (by simp)
    | ok c' =>
      rw [hc] at h
      dsimp only at h
      cases hrest : inlineList e rest with
      | error er => rw [hrest] at h; exact absurd h (by simp)
      | ok rest' =>
        rw [hrest] at h
        dsimp only at h
        simp only [Except.ok.injEq] at h
        subst h
        rw [InlinedList]
        exact ⟨inlineSound e hwf c c' hc, inlineListSound e hwf rest rest' hrest⟩
  termination_by ls => sizeOf ls
end

lemma resolveSegs_eq_foldl (l : List String) (acc : PathT) :
    resolveSegs acc l =
      l.foldl (fun b seg => if seg = ".." then b.dropLast else b ++ [seg]) acc := by
  induction l generalizing acc with
  | nil => rfl
  | cons seg rest ih =>
    rw [resolveSegs, List.foldl_cons]
    by_cases hs : seg = ".."
    · simp only [hs, if_pos rfl]
      rw [ih]
      simp
    · rw [if_neg (show ¬((seg == "..") = true) from by simp [hs]), if_neg hs]
      exact ih (acc ++ [seg])

lemma currentIdxGo_not_found (e : Epub) :
    ∀ (l : List String) (i : Nat),
      (∀ idref ∈ l, ∃ item, mGet e.manifest idref = some item ∧
        resolve_path item.href e.opf_path ≠ e.current_path) →
      currentIdxGo e i l = .error (.err "could not find current_path in spine") := by
  intro l
  induction l with
  | nil => intro i _; rfl
  | cons idref rest ih =>
    intro i hall
    obtain ⟨item, hitem, hne⟩ := hall idref (by simp)
    rw [currentIdxGo, hitem]
    dsimp only
    rw [if_neg (by simpa using hne)]
    exact ih (i + 1) (fun r hr => hall r (by simp [hr]))

lemma currentIdxGo_finds (e : Epub) :
    ∀ (l : List String) (i n : Nat) (idn : String) (itn : ManifestItem),
      l[n]? = some idn →
      mGet e.manifest idn = some itn →
      resolve_path itn.href e.opf_path = e.current_path →
      (∀ j, j < n → ∀ idj, l[j]? = some idj → ∃ itj, mGet e.manifest idj = some itj ∧
        resolve_path itj.href e.opf_path ≠ e.current_path) →
      currentIdxGo e i l = .ok (i + n) := by
  intro l
  induction l with
  | nil => intro i n idn itn hn; simp at hn
  | cons idref rest ih =>
    intro i n idn itn hn hitn hres hbefore
    cases n with
    | zero =>
      simp at hn
      subst hn
      rw [currentIdxGo, hitn]
      dsimp only
      rw [if_pos (by simpa using hres)]
      simp
    | succ m =>
      obtain ⟨it0, hit0, hne0⟩ := hbefore 0 (Nat.succ_pos m) idref (by simp)
      rw [currentIdxGo, hit0]
      dsimp only
      rw [if_neg (by simpa using hne0)]
      have := ih (i + 1) m idn itn (by simpa using hn) hitn hres
        (fun j hj idj hidj => hbefore (j + 1) (by omega) idj (by simpa using hidj))
      rw [this]
      congr 1
      omega

lemma new_ok_current_path {px : Px} {zip : List (String × List Nat)} {e : Epub}
    (h : Epub.new px zip = .ok e) : e.current_path = e.opf_path := by
  unfold Epub.new at h
  repeat' first
    | (split at h)
    | (dsimp only at h)
  all_goals first
    | (simp only [Except.ok.injEq] at h; subst h; rfl)
    | (exact absurd h (by simp))

/-- Any archive whose manifest section contains an `item` missing one of the
required attributes makes the manifest-building loop panic. -/
lemma buildManifest_bad_panics :
    ∀ (nodes : List Element) (acc : List (String × ManifestItem)),
      (∃ n ∈ nodes, n.name = "item" ∧
        (attrGet n.attrs "id" = none ∨ attrGet n.attrs "href" = none ∨
         attrGet n.attrs "media-type" = none)) →
      ∃ msg, buildManifest acc nodes = .error (.panic msg) := by
  intro nodes
  induction nodes with
  | nil => intro acc h; simp at h
  | cons n rest ih =>
    intro acc hbad
    rw [buildManifest]
    by_cases hn : n.name = "item"
    · rw [if_pos (by simpa using hn)]
      cases hid : attrGet n.attrs "id" with
      | none => exact ⟨"id missing in item", rfl⟩
      | some idv =>
        dsimp only
        cases hhref : attrGet n.attrs "href" with
        | none => exact ⟨"href missing in item", rfl⟩
        | some hrefv =>
          dsimp only
          cases hmt : attrGet n.attrs "media-type" with
          | none => exact ⟨"media_type missing in item", rfl⟩
          | some mtv =>
            dsimp only
            apply ih
            obtain ⟨m, hm, hmitem, hmbad⟩ := hbad
            rcases List.mem_cons.mp hm with rfl | hmem
            · rcases hmbad with hb | hb | hb
              · rw [hid] at hb; exact absurd hb (by simp)
              · rw [hhref] at hb; exact absurd hb (by simp)
              · rw [hmt] at hb; exact absurd hb (by simp)
            · exact ⟨m, hmem, hmitem, hmbad⟩
    · rw [if_neg (by simpa using hn)]
      apply ih
      obtain ⟨m, hm, hmitem, hmbad⟩ := hbad
      rcases List.mem_cons.mp hm with rfl | hmem
      · exact absurd hmitem hn
      · exact ⟨m, hmem, hmitem, hmbad⟩

/-- `chapter` reads `spine`, `manifest` and `opf_path` but never the current
cursor, so its returned rendering does not depend on `current_path`. -/
lemma chapter_snd_ignores_cursor (px : Px) (pu : Pu) (e : Epub) (q : PathT) (i : Nat) :
    (Epub.chapter px pu { e with current_path := q } i).2 = (Epub.chapter px pu e i).2 := by
  rw [Epub.chapter, Epub.chapter]
  cases hs : e.spine[i]? with
  | none => rfl
  | some idref =>
    dsimp only
    cases hm : mGet e.manifest idref with
    | none => rfl
    | some item =>
      dsimp only
      rw [Epub.current_chapter, Epub.current_chapter]
      cases hp : pu item.href with
      | error er => rfl
      | ok upath => rfl

/-! Claim theorems. -/

/-- C3, counterexample: an archive whose spine contains the idref `ghost`,
which the manifest does not define, still loads successfully — `Epub::new`
never looks spine idrefs up in the manifest (only the `toc` id), so the claim
that such an archive fails at load time is false. -/
theorem c3_counterexample :
    Epub.new pxA zipGhost = .ok epubGhost ∧
    epubGhost.spine = ["c1", "ghost"] ∧
    mGet epubGhost.manifest "ghost" = none := by
  refine ⟨by decide, by decide, by decide⟩

/-- C3 (amended): an unresolved spine idref is accepted at load time; the
failure surfaces only when the entry is used — `chapter(i)` on a spine index
whose idref is not a manifest key fails with the `idref not in manifest`
error, leaving the engine unchanged. -/
theorem c3_amended (px : Px) (pu : Pu) (e : Epub) (i : Nat) (idref : String)
    (hs : e.spine[i]? = some idref)
    (hm : mGet e.manifest idref = none) :
    e.chapter px pu i = (e, .error (.err "idref not in manifest")) := by
  rw [Epub.chapter, hs]
  dsimp only
  rw [hm]

/-- C3, witness for the amended theorem at the ghost archive. -/
theorem c3_witness :
    epubGhost.spine[1]? = some "ghost" ∧
    mGet epubGhost.manifest "ghost" = none ∧
    epubGhost.chapter pxA puA 1 = (epubGhost, .error (.err "idref not in manifest")) :=
  ⟨by decide, by decide, c3_amended pxA puA epubGhost 1 "ghost" (by decide) (by decide)⟩

/-- C4, counterexample: the resolver applied to the empty reference returns
the anchor itself, not the anchor's directory — resolving `""` anchored at
`OEBPS/text/chapter1.xhtml` yields `OEBPS/text/chapter1.xhtml`, not
`OEBPS/text` (the early return precedes the `pop`). -/
theorem c4_counterexample :
    resolve_path "" (pathComponents "OEBPS/text/chapter1.xhtml") =
      pathComponents "OEBPS/text/chapter1.xhtml" ∧
    pathComponents "OEBPS/text/chapter1.xhtml" ≠ pathComponents "OEBPS/text" := by
  refine ⟨by decide, by decide⟩

/-- C4 (amended): the path resolver applied to an empty reference string
returns the anchor unchanged (with its last segment kept); in particular
resolving `""` anchored at `OEBPS/text/chapter1.xhtml` yields
`OEBPS/text/chapter1.xhtml`. -/
theorem c4_amended :
    (∀ anchor : PathT, resolve_path "" anchor = anchor) ∧
    resolve_path "" (pathComponents "OEBPS/text/chapter1.xhtml") =
      pathComponents "OEBPS/text/chapter1.xhtml" :=
  ⟨fun _ => rfl, rfl⟩

/-- C5, counterexample: an archive whose manifest has an `item` without an
`href` attribute is rejected by a panic (the Rust `.expect(..)` crash), not by
an error result: `Epub::new` evaluates to the `panic` outcome, refuting the
claim that the failure is an error value rather than a crash. -/
theorem c5_counterexample :
    Epub.new pxA zipNoHref = .error (.panic "href missing in item") := by
  decide

/-- C5 (amended): an archive reaching manifest construction with an `item`
element missing `id`, `href` or `media-type` never yields an engine: the load
aborts with a panic (an unrecoverable crash, not an error result), rejecting
the archive wholesale rather than skipping the row. -/
theorem c5_amended (px : Px) (zip : List (String × List Nat)) (cb : List Nat)
    (cdoc rfn : Element) (opfStr : String) (ob : List Nat) (odoc mnode : Element)
    (h1 : zipByName zip "META-INF/container.xml" = some cb)
    (h2 : px cb = .ok cdoc)
    (h3 : cdoc.descendants.find? (fun n => n.name == "rootfile") = some rfn)
    (h4 : attrGet rfn.attrs "full-path" = some opfStr)
    (h5 : zipByName zip opfStr = some ob)
    (h6 : px ob = .ok odoc)
    (h7 : odoc.children.find? (fun n => n.name == "manifest") = some mnode)
    (hbad : ∃ n ∈ mnode.children, n.name = "item" ∧
      (attrGet n.attrs "id" = none ∨ attrGet n.attrs "href" = none ∨
       attrGet n.attrs "media-type" = none)) :
    ∃ msg, Epub.new px zip = .error (.panic msg) := by
  obtain ⟨msg, hbm⟩ := buildManifest_bad_panics mnode.children [] hbad
  refine ⟨msg, ?_⟩
  rw [Epub.new, h1]
  dsimp only
  rw [h2]
  dsimp only
  rw [h3]
  dsimp only
  rw [h4]
  dsimp only
  rw [h5]
  dsimp only
  rw [h6]
  dsimp only
  rw [h7]
  dsimp only
  rw [hbm]

/-- C5, witness for the amended theorem at the missing-href archive. -/
theorem c5_witness :
    zipByName zipNoHref "META-INF/container.xml" = some [0] ∧
    ∃ msg, Epub.new pxA zipNoHref = .error (.panic msg) :=
  ⟨by decide,
   c5_amended pxA zipNoHref [0] containerDocA
     (.mk "rootfile" [("full-path", "content.opf")] [] "") "content.opf" [5]
     opfDocNoHref
     (.mk "manifest" []
       [.mk "item" [("id", "c1"), ("media-type", "application/xhtml+xml")] [] "",
        itemElem "ncx" "toc.ncx" "application/x-dtbncx+xml"] "")
     (by decide) rfl rfl (by decide) (by decide) rfl rfl
     ⟨.mk "item" [("id", "c1"), ("media-type", "application/xhtml+xml")] [] "",
      List.Mem.head _, rfl, Or.inr (Or.inl rfl)⟩⟩

/-- C6 (confirmed): for a non-empty reference the resolver drops the anchor's
last segment and then walks the reference's path segments left to right, `..`
popping the last component and every other segment (a leading `.` included)
being appended verbatim; resolving `../img/cover.png` anchored at
`OEBPS/text/chapter1.xhtml` yields `OEBPS/img/cover.png`. -/
theorem c6_walk :
    (∀ (ref : String) (anchor : PathT), ref ≠ "" →
       resolve_path ref anchor =
         (pathComponents ref).foldl
           (fun b seg => if seg = ".." then b.dropLast else b ++ [seg]) anchor.dropLast) ∧
    resolve_path "../img/cover.png" (pathComponents "OEBPS/text/chapter1.xhtml") =
      pathComponents "OEBPS/img/cover.png" := by
  constructor
  · intro ref anchor href
    rw [resolve_path, if_neg (by simpa using href)]
    exact resolveSegs_eq_foldl _ _
  · decide

/-- C6, witness at the claim's own example. -/
theorem c6_witness :
    ("../img/cover.png" : String) ≠ "" ∧
    resolve_path "../img/cover.png" (pathComponents "OEBPS/text/chapter1.xhtml") =
      (pathComponents "../img/cover.png").foldl
        (fun b seg => if seg = ".." then b.dropLast else b ++ [seg])
        (pathComponents "OEBPS/text/chapter1.xhtml").dropLast :=
  ⟨by decide, c6_walk.1 "../img/cover.png" (pathComponents "OEBPS/text/chapter1.xhtml") (by decide)⟩

/-- C7 (confirmed): when the cursor sits at spine index 0, `prev_chapter`
saturates (`0 - 1 = 0` for the saturating subtraction) and performs exactly
`chapter(0)` again; when the cursor sits at the last index, `next_chapter`
does not saturate — it requests index `length`, which `chapter` rejects with
the out-of-range error (`IndexOutOfRange` in the spec's taxonomy, the
`item_idx not in spine` lookup failure), leaving the engine unchanged. -/
theorem c7_saturation :
    (∀ (px : Px) (pu : Pu) (e : Epub), e.current_idx = .ok 0 →
       e.prev_chapter px pu = e.chapter px pu 0) ∧
    (∀ (px : Px) (pu : Pu) (e : Epub) (n : Nat), e.current_idx = .ok n →
       n + 1 = e.spine.length →
       e.next_chapter px pu = (e, .error (.err "item_idx not in spine"))) := by
  constructor
  · intro px pu e h
    rw [Epub.prev_chapter, h]
  · intro px pu e n h hlen
    rw [Epub.next_chapter, h]
    dsimp only
    rw [Epub.chapter, List.getElem?_eq_none (by omega)]

/-- C7, witness: on the two-chapter archive, after opening chapter 0 the
previous-chapter call re-renders chapter 0, and after opening the last
chapter the next-chapter call fails out of range. -/
theorem c7_witness :
    ((epubA.chapter pxA puA 0).1.prev_chapter pxA puA
      = (epubA.chapter pxA puA 0).1.chapter pxA puA 0) ∧
    ((epubA.chapter pxA puA 1).1.next_chapter pxA puA =
      ((epubA.chapter pxA puA 1).1, .error (.err "item_idx not in spine"))) :=
  ⟨c7_saturation.1 pxA puA (epubA.chapter pxA puA 0).1 (by decide),
   c7_saturation.2 pxA puA (epubA.chapter pxA puA 1).1 1 (by decide) (by decide)⟩

/-- C10 (confirmed): `chapter_by_link` with an empty or fragment-only href
(nothing before the `#`) resolves back to the current document: the `url`
crate yields the bare path `/` for such an href, the leading slash is dropped
leaving the empty reference, and the resolver returns the anchor
(`current_path`) unchanged — the engine state is untouched and the document at
`current_path` is re-rendered. -/
theorem c10_fragment_link (px : Px) (pu : Pu) (e : Epub) (href : String)
    (hfrag : href.toList.takeWhile (fun c => c != '#') = [])
    (hpu : pu href = .ok "/") :
    e.chapter_by_link px pu href = (e, renderCurrent px e) := by
  clear hfrag
  rw [Epub.chapter_by_link, Epub.current_chapter, hpu]
  rfl

/-- C10, witness at a fragment-only href on the concrete archive. -/
theorem c10_witness :
    ("#Footnote_1_1").toList.takeWhile (fun c => c != '#') = ([] : List Char) ∧
    puA "#Footnote_1_1" = .ok "/" ∧
    epubA.chapter_by_link pxA puA "#Footnote_1_1" = (epubA, renderCurrent pxA epubA) :=
  ⟨by decide, by decide, c10_fragment_link pxA puA epubA "#Footnote_1_1" (by decide) (by decide)⟩

/-- `chapter` either fails its spine/manifest lookup and leaves the engine
untouched, or reassigns `current_path` to the attempted target (and nothing
else), whether or not the rendering afterwards succeeds. -/
lemma chapter_state (px : Px) (pu : Pu) (e : Epub) (i : Nat) :
    ((e.chapter px pu i).1 = e ∧ chapterTargetPath pu e i = none) ∨
    (∃ p, chapterTargetPath pu e i = some p ∧
      (e.chapter px pu i).1 = { e with current_path := p }) := by
  rw [Epub.chapter, chapterTargetPath]
  cases hs : e.spine[i]? with
  | none => exact .inl ⟨rfl, rfl⟩
  | some idref =>
    dsimp only
    cases hm : mGet e.manifest idref with
    | none => exact .inl ⟨rfl, rfl⟩
    | some item =>
      dsimp only
      rw [Epub.current_chapter, chTargetPath]
      cases hp : pu item.href with
      | error er => exact .inl ⟨rfl, rfl⟩
      | ok upath =>
        dsimp only
        exact .inr ⟨resolve_path (strDrop1 upath) e.opf_path, rfl, rfl⟩

/-- C1 (amended): when a chapter-retrieval operation fails, no partial result
is returned and the engine is left in exactly one of two states: unchanged
(when the failure precedes path resolution: bad index, unresolved idref,
cursor not in spine, or the href failing to parse as a URL), or with
`current_path` — and nothing else — already moved to the operation's resolved
target path (when the failure occurs while reading, parsing or inlining the
target).  The cursor is never rolled back, but it can have been rolled
forward by a failed call. -/
theorem c1_amended (px : Px) (pu : Pu) (e : Epub) (op : NavOp)
    (hfail : ∃ er, (runOp px pu e op).2 = .error er) :
    ((runOp px pu e op).1 = e ∧ opTargetPath pu e op = none) ∨
    (∃ p, opTargetPath pu e op = some p ∧
      (runOp px pu e op).1 = { e with current_path := p }) := by
  clear hfail
  cases op with
  | chapterOp i =>
    simp only [runOp, opTargetPath]
    exact chapter_state px pu e i
  | byLink href =>
    simp only [runOp, opTargetPath, Epub.chapter_by_link, Epub.current_chapter, chTargetPath]
    cases hp : pu href with
    | error er => exact .inl ⟨rfl, rfl⟩
    | ok upath =>
      dsimp only
      exact .inr ⟨resolve_path (strDrop1 upath) e.current_path, rfl, rfl⟩
  | byTocLink href =>
    simp only [runOp, opTargetPath, Epub.chapter_by_toc_link, Epub.current_chapter, chTargetPath]
    cases hp : pu href with
    | error er => exact .inl ⟨rfl, rfl⟩
    | ok upath =>
      dsimp only
      exact .inr ⟨resolve_path (strDrop1 upath) e.toc_path, rfl, rfl⟩
  | nextOp =>
    simp only [runOp, Epub.next_chapter, opTargetPath]
    cases hidx : e.current_idx with
    | error er => exact .inl ⟨rfl, rfl⟩
    | ok i =>
      dsimp only
      exact chapter_state px pu e (i + 1)
  | prevOp =>
    simp only [runOp, Epub.prev_chapter, opTargetPath]
    cases hidx : e.current_idx with
    | error er => exact .inl ⟨rfl, rfl⟩
    | ok i =>
      dsimp only
      exact chapter_state px pu e (i - 1)

/-- C1, counterexample: `chapter_by_link` to an href whose resolved path is
not an archive entry fails, yet `current_path` has moved from `content.opf`
to `missing.html` — the failed operation did not leave the cursor as it was
before the call. -/
theorem c1_counterexample :
    (epubA.chapter_by_link pxA puA "missing.html").2 = .error (.err "file not found") ∧
    epubA.current_path = ["content.opf"] ∧
    (epubA.chapter_by_link pxA puA "missing.html").1.current_path = ["missing.html"] := by
  refine ⟨by decide, by decide, by decide⟩

/-- C1, witness for the amended theorem at the failing link operation. -/
theorem c1_witness :
    (∃ er, (runOp pxA puA epubA (.byLink "missing.html")).2 = .error er) ∧
    (((runOp pxA puA epubA (.byLink "missing.html")).1 = epubA ∧
        opTargetPath puA epubA (.byLink "missing.html") = none) ∨
      (∃ p, opTargetPath puA epubA (.byLink "missing.html") = some p ∧
        (runOp pxA puA epubA (.byLink "missing.html")).1 = { epubA with current_path := p })) :=
  ⟨⟨.err "file not found", by decide⟩,
   c1_amended pxA puA epubA (.byLink "missing.html") ⟨.err "file not found", by decide⟩⟩

/-- C2 (amended): immediately after opening, the cursor is the package
document's own path, which is not a spine entry, so `prev_chapter` fails with
the `CurrentNotInSpine` error (`could not find current_path in spine`) and
leaves the engine unchanged whenever every spine item resolves to a path
other than the package document's; only once `chapter(0)` has succeeded — for
a first spine entry whose URL-resolved path is the slash-prefixed href itself
(no fragment, no dot-segments for the URL parser to normalize away) — does
`prev_chapter` saturate and return the same content as `chapter(0)`. -/
theorem c2_amended :
    (∀ (px : Px) (pu : Pu) (zip : List (String × List Nat)) (e : Epub),
       Epub.new px zip = .ok e →
       (∀ idref ∈ e.spine, ∃ item, mGet e.manifest idref = some item ∧
          resolve_path item.href e.opf_path ≠ e.opf_path) →
       e.prev_chapter px pu = (e, .error (.err "could not find current_path in spine"))) ∧
    (∀ (px : Px) (pu : Pu) (e : Epub) (id0 : String) (it0 : ManifestItem) (s : String),
       e.spine[0]? = some id0 →
       mGet e.manifest id0 = some it0 →
       pu it0.href = .ok ("/" ++ it0.href) →
       (e.chapter px pu 0).2 = .ok s →
       ((e.chapter px pu 0).1.prev_chapter px pu).2 = .ok s) := by
  constructor
  · intro px pu zip e hnew hall
    have hcp := new_ok_current_path hnew
    have hci : e.current_idx = .error (.err "could not find current_path in spine") := by
      apply currentIdxGo_not_found
      intro idref hir
      obtain ⟨item, hi, hne⟩ := hall idref hir
      refine ⟨item, hi, ?_⟩
      rw [hcp]
      exact hne
    rw [Epub.prev_chapter, hci]
  · intro px pu e id0 it0 s h0 hm hpu hok
    have hch : e.chapter px pu 0 = e.current_chapter px pu it0.href e.opf_path := by
      rw [Epub.chapter, h0]
      dsimp only
      rw [hm]
    have hsd : strDrop1 ("/" ++ it0.href) = it0.href := rfl
    rw [hch] at hok ⊢
    rw [Epub.current_chapter, hpu] at hok ⊢
    dsimp only at hok ⊢
    rw [hsd] at hok ⊢
    have hidx : ({ e with current_path := resolve_path it0.href e.opf_path } : Epub).current_idx
        = .ok 0 := by
      have := currentIdxGo_finds { e with current_path := resolve_path it0.href e.opf_path }
        e.spine 0 0 id0 it0 (by simpa using h0) hm rfl
        (fun j hj => absurd hj (by omega))
      simpa using this
    rw [Epub.prev_chapter, hidx]
    dsimp only
    rw [Epub.chapter]
    rw [show ({ e with current_path := resolve_path it0.href e.opf_path } : Epub).spine[0]?
        = some id0 from h0]
    dsimp only
    rw [hm]
    dsimp only
    rw [Epub.current_chapter, hpu]
    dsimp only
    rw [hsd]
    exact hok

/-- C2, counterexample: on a loaded archive, `prev_chapter` called immediately
after opening does not succeed — it fails with the cursor-not-in-spine error,
while `chapter(0)` succeeds; the claim that it succeeds with `chapter(0)`'s
content is false. -/
theorem c2_counterexample :
    Epub.new pxA zipA = .ok epubA ∧
    (epubA.chapter pxA puA 0).2 = .ok "<html>one</html>" ∧
    (epubA.prev_chapter pxA puA).2 = .error (.err "could not find current_path in spine") := by
  refine ⟨by decide, by decide, by decide⟩

/-- C2, witness for the two branches of the amended theorem on the concrete
archive. -/
theorem c2_witness :
    epubA.prev_chapter pxA puA
      = (epubA, .error (.err "could not find current_path in spine")) ∧
    ((epubA.chapter pxA puA 0).1.prev_chapter pxA puA).2 = .ok "<html>one</html>" :=
  ⟨c2_amended.1 pxA puA zipA epubA (by decide)
    (fun idref hir => by
      simp only [epubA, List.mem_cons, List.not_mem_nil, or_false] at hir
      rcases hir with rfl | rfl
      · exact ⟨⟨"c1", "ch1.xhtml", "application/xhtml+xml"⟩, by decide, by decide⟩
      · exact ⟨⟨"c2", "ch2.xhtml", "application/xhtml+xml"⟩, by decide, by decide⟩),
   c2_amended.2 pxA puA epubA "c1" ⟨"c1", "ch1.xhtml", "application/xhtml+xml"⟩
     "<html>one</html>" (by decide) (by decide) (by decide) (by decide)⟩

/-- C8 (amended): `next_chapter` after `chapter(n)` returns the same result as
`chapter(n+1)` provided the spine idrefs at positions up to `n` resolve in the
manifest, entry `n`'s URL-resolved path is the slash-prefixed href itself (no
fragment and no dot-segments for the URL parser to normalize away — otherwise
the URL-normalized cursor never matches the raw resolution used by the cursor
scan), and no earlier spine entry resolves to the same path as entry `n` —
without the last condition the cursor scan finds the earlier duplicate and
`next_chapter` renders the wrong neighbour (see the counterexample). -/
theorem c8_amended (px : Px) (pu : Pu) (e : Epub) (n : Nat) (idn : String) (itn : ManifestItem)
    (hn : e.spine[n]? = some idn)
    (hm : mGet e.manifest idn = some itn)
    (hpu : pu itn.href = .ok ("/" ++ itn.href))
    (hbefore : ∀ j, j < n → ∀ idj, e.spine[j]? = some idj →
      ∃ itj, mGet e.manifest idj = some itj ∧
        resolve_path itj.href e.opf_path ≠ resolve_path itn.href e.opf_path) :
    ((e.chapter px pu n).1.next_chapter px pu).2 = (e.chapter px pu (n + 1)).2 := by
  have hch : e.chapter px pu n = e.current_chapter px pu itn.href e.opf_path := by
    rw [Epub.chapter, hn]
    dsimp only
    rw [hm]
  have hsd : strDrop1 ("/" ++ itn.href) = itn.href := rfl
  rw [hch, Epub.current_chapter, hpu]
  dsimp only
  rw [hsd]
  have hidx : ({ e with current_path := resolve_path itn.href e.opf_path } : Epub).current_idx
      = .ok n := by
    have := currentIdxGo_finds { e with current_path := resolve_path itn.href e.opf_path }
      e.spine 0 n idn itn (by simpa using hn) hm rfl hbefore
    simpa using this
  rw [Epub.next_chapter, hidx]
  dsimp only
  exact chapter_snd_ignores_cursor px pu e (resolve_path itn.href e.opf_path) (n + 1)

/-- C8, counterexample: an archive whose three-entry spine lists chapter 1
twice (indices 0 and 1); `n = 1` lies in `[0, doc_count()-2]`, `chapter(1)`
succeeds, yet `next_chapter()` re-renders chapter one (`<html>one</html>`)
while `chapter(2)` renders chapter two (`<html>two</html>`) — the contents
differ, refuting the claim for every loaded archive. -/
theorem c8_counterexample :
    Epub.new pxA zipDup = .ok epubDup ∧
    epubDup.doc_count = .ok 3 ∧
    (epubDup.chapter pxA puA 1).2 = .ok "<html>one</html>" ∧
    ((epubDup.chapter pxA puA 1).1.next_chapter pxA puA).2 = .ok "<html>one</html>" ∧
    (epubDup.chapter pxA puA 2).2 = .ok "<html>two</html>" ∧
    ("<html>one</html>" : String) ≠ "<html>two</html>" := by
  refine ⟨by decide, by decide, by decide, by decide, by decide, by decide⟩

/-- C8, witness for the amended theorem at `n = 0` on the duplicate-free
archive. -/
theorem c8_witness :
    ((epubA.chapter pxA puA 0).1.next_chapter pxA puA).2 = (epubA.chapter pxA puA 1).2 :=
  c8_amended pxA puA epubA 0 "c1" ⟨"c1", "ch1.xhtml", "application/xhtml+xml"⟩
    (by decide) (by decide) (by decide) (fun j hj => absurd hj (by omega))

/-- C9 (confirmed): a successfully inlined chapter tree satisfies the
specification relation `Inlined`: every `img` (`src`), `image` (`xlink:href`)
and `link` (`href`) element's attribute has been rewritten in place to
`data:<media-type>;base64,<payload>` where the payload base64-decodes
byte-for-byte to the bytes of the archive entry at the attribute's value
resolved against `current_path`, and the media type is that of the manifest
item whose resolved href equals the target path or the empty string when no
item matches (not an error); all other elements, attributes and text are
unchanged, children having been processed recursively. -/
theorem c9_inline (e : Epub) (root out : Element)
    (hwf : ∀ en ∈ e.zip, ∀ b ∈ en.2, b < 256)
    (h : e.inline_resources root = .ok out) :
    Inlined e root out :=
  inlineSound e hwf root out h

/-- C9, witness: inlining a `div` containing an `img` referencing `pic.png`
(bytes `[77, 78, 79]`, manifest media type `image/png`) rewrites the `src` to
the base64 data URI `data:image/png;base64,TU5P`. -/
theorem c9_witness :
    Inlined epubImg imgDoc
      (.mk "div" [] [.mk "img" [("src", "data:image/png;base64,TU5P")] [] ""] "x") :=
  c9_inline epubImg imgDoc
    (.mk "div" [] [.mk "img" [("src", "data:image/png;base64,TU5P")] [] ""] "x")
    (by decide) rfl
